import Mathlib

/-!
Verification of the Device Link Protocol and Audio-Synchronized Animation
Scheduler of the Object-Love-Interface repository.

The definitions below are a shallow embedding of `src/pipeline/wifi_link.py`
(class `WiFiLink`), whose line classification and image sub-protocol are
textually identical to `src/pipeline/date_pipeline.py` (class `EventSerial`),
and of `src/pipeline/mouth_sync.py` (`analyze_audio`, `animate_mouth`).

Modelling conventions:
* Raw transport bytes are `List Nat` (one `Nat` per byte; the newline byte
  is `10`).
* Python values produced by `json.loads` are modelled by `PyVal`; the two
  external library functions `bytes.decode("utf-8", errors="ignore")` and
  `json.loads` are parameters, bundled in `PyEnv` (the code treats both as
  black boxes; classification only inspects their results).
* Wall-clock deadlines are modelled by a fuel argument: one unit of fuel is
  one iteration of the `while time.time() < deadline` receive loop; running
  out of fuel is the deadline elapsing.
* A socket receive can yield data, time out, return zero bytes (peer closed),
  or raise `OSError`; `Recv` enumerates those outcomes and a read loop
  consumes one `Recv` per iteration.
-/

/-- A Python value as produced by `json.loads`: a JSON object becomes a
`dict` (association list of string keys), arrays become `list`, and the
scalar cases keep their Python type. -/
inductive PyVal where
  | dict : List (String × PyVal) → PyVal
  | list : List PyVal → PyVal
  | str : String → PyVal
  | int : Int → PyVal
  | float : ℚ → PyVal
  | bool : Bool → PyVal
  | noneVal : PyVal

/-- Python exceptions that the embedded code can raise and does not catch:
`TypeError` from `"event" in msg` when `msg` is not iterable, and
`AttributeError` from `resp.get(...)` when `resp` is not a dict. -/
inductive PyErr where
  | typeError : PyErr
  | attrError : PyErr
deriving DecidableEq

/-- Does the character list `needle` occur at the start of `hay`? -/
def charsStartWith : List Char → List Char → Bool
  | [], _ => true
  | _ :: _, [] => false
  | c :: cs, d :: ds => c == d && charsStartWith cs ds

/-- Does the character list `needle` occur anywhere inside `hay`
(Python `needle in hay` for strings)? -/
def charsContain : List Char → List Char → Bool
  | needle, [] => needle.isEmpty
  | needle, d :: ds => charsStartWith needle (d :: ds) || charsContain needle ds

/-- Python `key in msg`: key membership for a dict, element equality for a
list, substring test for a str, and a `TypeError` for non-iterable values
(int, float, bool, None). -/
def pyContains (v : PyVal) (key : String) : Except PyErr Bool :=
  match v with
  | PyVal.dict fields => Except.ok (fields.any (fun kv => kv.1 == key))
  | PyVal.list elems =>
      Except.ok (elems.any (fun e =>
        match e with
        | PyVal.str s => s == key
        | _ => false))
  | PyVal.str s => Except.ok (charsContain key.data s.data)
  | _ => Except.error PyErr.typeError

/-- Python `msg.get(key)`: `None`-or-value lookup on a dict,
`AttributeError` on anything else. -/
def pyGet (v : PyVal) (key : String) : Except PyErr (Option PyVal) :=
  match v with
  | PyVal.dict fields => Except.ok ((fields.find? (fun kv => kv.1 == key)).map (·.2))
  | _ => Except.error PyErr.attrError

/-- Python `str.strip()`: drop leading and trailing whitespace. -/
def pyStrip (s : String) : String :=
  String.mk (((s.data.dropWhile Char.isWhitespace).reverse.dropWhile Char.isWhitespace).reverse)

/-- The two external byte/text library functions the link code calls:
`bytes.decode("utf-8", errors="ignore")` and `json.loads` (where `none`
models a raised `json.JSONDecodeError`). -/
structure PyEnv where
  decode : List Nat → String
  loads : String → Option PyVal

/-- Outcome of handling one framed line inside
`WiFiLink._read_until_status` (wifi_link.py lines 184-197): the line is
skipped (empty after strip, unparsable, or neither key), appended to
`self.events`, returned as the status response, or it raises. -/
inductive LineClass where
  | skip : LineClass
  | event : PyVal → LineClass
  | response : PyVal → LineClass
  | err : PyErr → LineClass

/-- The per-line classification of `_read_until_status`
(wifi_link.py lines 186-197): strip, drop empty lines, `json.loads`,
then `if "event" in msg` / `elif "status" in msg`, swallowing only
`json.JSONDecodeError`. -/
def classifyLine (env : PyEnv) (line : List Nat) : LineClass :=
  let text := pyStrip (env.decode line)
  if text = "" then LineClass.skip
  else
    match env.loads text with
    | Option.none => LineClass.skip
    | Option.some msg =>
        match pyContains msg "event" with
        | Except.error e => LineClass.err e
        | Except.ok true => LineClass.event msg
        | Except.ok false =>
            match pyContains msg "status" with
            | Except.error e => LineClass.err e
            | Except.ok true => LineClass.response msg
            | Except.ok false => LineClass.skip

/-- The per-line handling of `_drain_lines` (wifi_link.py lines 149-160):
like `classifyLine` but stale status responses are discarded rather than
returned (`ok (some v)` = append event `v`, `ok none` = drop the line). -/
def drainLine (env : PyEnv) (line : List Nat) : Except PyErr (Option PyVal) :=
  let text := pyStrip (env.decode line)
  if text = "" then Except.ok Option.none
  else
    match env.loads text with
    | Option.none => Except.ok Option.none
    | Option.some msg =>
        match pyContains msg "event" with
        | Except.error e => Except.error e
        | Except.ok true => Except.ok (Option.some msg)
        | Except.ok false => Except.ok Option.none

/-- Python `buf.split(b"\n", 1)`: the bytes before the first newline byte
and the bytes after it, or `none` when the buffer holds no newline
(the `while b"\n" in self._recv_buf` guard fails). -/
def splitFirst : List Nat → Option (List Nat × List Nat)
  | [] => Option.none
  | b :: bs =>
      if b = 10 then Option.some ([], bs)
      else (splitFirst bs).map (fun p => (b :: p.1, p.2))

theorem splitFirst_rest_length : ∀ {buf l r : List Nat},
    splitFirst buf = Option.some (l, r) → r.length < buf.length := by
  intro buf
  induction buf with
  | nil => intro l r h; simp [splitFirst] at h
  | cons b bs ih =>
      intro l r h
      simp only [splitFirst] at h
      split at h
      · cases h
        simp only [List.length_cons]
        omega
      · match hs : splitFirst bs with
        | Option.none => rw [hs] at h; simp at h
        | Option.some (l2, r2) =>
            rw [hs] at h
            simp only [Option.map_some'] at h
            cases h
            have := ih hs
            simp only [List.length_cons]
            omega

/-- The carry-over line framer: repeatedly extract `<line>\n` segments from
the buffer, returning the complete lines in order and the unterminated
remainder (the bytes left in `self._recv_buf`). -/
def extractLines (buf : List Nat) : List (List Nat) × List Nat :=
  match h : splitFirst buf with
  | Option.none => ([], buf)
  | Option.some (l, r) =>
      let p := extractLines r
      (l :: p.1, p.2)
termination_by buf.length
decreasing_by exact splitFirst_rest_length h

/-- Feeding successive chunks through the carry-over framer: each new chunk
is appended to the carry buffer (`self._recv_buf += data`) and all complete
lines are extracted; returns all emitted lines in order plus the final
carry buffer. -/
def feedAll (buf : List Nat) : List (List Nat) → List (List Nat) × List Nat
  | [] => ([], buf)
  | c :: cs =>
      let p := extractLines (buf ++ c)
      let q := feedAll p.2 cs
      (p.1 ++ q.1, q.2)

/-- The mutable per-session state of `WiFiLink`: the carry-over receive
buffer `self._recv_buf` and the pending event queue `self.events`. -/
structure LinkState where
  recvBuf : List Nat
  events : List PyVal

/-- Outcome of one `self.sock.recv(4096)` call: bytes arrived (a
zero-length result is how the peer closing the connection manifests), the
per-recv timeout fired (`socket.timeout` on the blocking path,
`BlockingIOError` on the non-blocking one), or the read raised `OSError`. -/
inductive Recv where
  | data : List Nat → Recv
  | timedOut : Recv
  | oserr : Recv

/-- `WiFiLink._recv_available` (wifi_link.py lines 128-141): non-blocking
receive; `BlockingIOError` and `OSError` become `b""`, and a zero-length
read from a closed connection is returned as `b""` unchanged —
indistinguishable from "no data". -/
def recv_available : Recv → List Nat
  | Recv.data b => b
  | Recv.timedOut => []
  | Recv.oserr => []

/-- The next pending receive outcome: once the script of arriving data is
exhausted, every further `recv` call just times out until the deadline. -/
def nextRecv : List Recv → Recv × List Recv
  | [] => (Recv.timedOut, [])
  | r :: rs => (r, rs)

/-- Result of running the inner `while b"\n" in self._recv_buf` loop of
`_read_until_status` over the buffer: a status response was found (with the
state as left behind), the complete lines ran out, or a line raised. -/
inductive ReadOut where
  | found : PyVal → LinkState → ReadOut
  | more : LinkState → ReadOut
  | raised : PyErr → ReadOut

/-- The inner line-processing loop of `WiFiLink._read_until_status`
(wifi_link.py lines 184-197): extract each complete line, append events to
`self.events`, return the first status response (leaving the rest of the
buffer in `self._recv_buf`), silently drop everything else. -/
def processBuf (env : PyEnv) (buf : List Nat) (evs : List PyVal) : ReadOut :=
  match h : splitFirst buf with
  | Option.none => ReadOut.more ⟨buf, evs⟩
  | Option.some (l, r) =>
      match classifyLine env l with
      | LineClass.skip => processBuf env r evs
      | LineClass.event v => processBuf env r (evs ++ [v])
      | LineClass.response v => ReadOut.found v ⟨r, evs⟩
      | LineClass.err e => ReadOut.raised e
termination_by buf.length
decreasing_by
  all_goals exact splitFirst_rest_length h

/-- The `while b"\n" in self._recv_buf` loop of `WiFiLink._drain_lines`
(wifi_link.py lines 149-160): append events, discard stale status
responses and malformed lines; returns the remaining buffer and the grown
event queue (or the uncaught `TypeError`). -/
def drainBuf (env : PyEnv) (buf : List Nat) (evs : List PyVal) :
    Except PyErr (List Nat × List PyVal) :=
  match h : splitFirst buf with
  | Option.none => Except.ok (buf, evs)
  | Option.some (l, r) =>
      match drainLine env l with
      | Except.error e => Except.error e
      | Except.ok Option.none => drainBuf env r evs
      | Except.ok (Option.some v) => drainBuf env r (evs ++ [v])
termination_by buf.length
decreasing_by
  all_goals exact splitFirst_rest_length h

/-- The sentinel `{"status":"timeout"}` returned when the deadline elapses
(wifi_link.py line 199). -/
def timeoutDict : PyVal := PyVal.dict [("status", PyVal.str "timeout")]

/-- The error response `{"status":"error","msg":"connection closed"}`
returned when a blocking read sees a zero-length result
(wifi_link.py line 177). -/
def connClosedDict : PyVal :=
  PyVal.dict [("status", PyVal.str "error"), ("msg", PyVal.str "connection closed")]

/-- The error response `{"status":"error","msg":"recv failed"}` returned
when a blocking read raises `OSError` (wifi_link.py line 182). -/
def recvFailedDict : PyVal :=
  PyVal.dict [("status", PyVal.str "error"), ("msg", PyVal.str "recv failed")]

/-- `WiFiLink._read_until_status` (wifi_link.py lines 162-199): loop until
the deadline (one unit of fuel per receive iteration); each iteration
receives one `Recv` outcome, surfaces a closed connection or `OSError` as
an error response, appends received data to `self._recv_buf`, then runs
the line-processing loop; when the fuel is exhausted the deadline has
elapsed and the `{"status":"timeout"}` sentinel is returned. Returns the
response together with the final session state and the unconsumed
receive script. -/
def read_until_status (env : PyEnv) :
    Nat → List Recv → LinkState → Except PyErr (PyVal × LinkState × List Recv)
  | 0, ins, s => Except.ok (timeoutDict, s, ins)
  | Nat.succ fuel, ins, s =>
      let pr := nextRecv ins
      match pr.1 with
      | Recv.oserr => Except.ok (recvFailedDict, s, pr.2)
      | Recv.timedOut =>
          match processBuf env s.recvBuf s.events with
          | ReadOut.found v s2 => Except.ok (v, s2, pr.2)
          | ReadOut.more s2 => read_until_status env fuel pr.2 s2
          | ReadOut.raised e => Except.error e
      | Recv.data b =>
          if b = [] then Except.ok (connClosedDict, s, pr.2)
          else
            match processBuf env (s.recvBuf ++ b) s.events with
            | ReadOut.found v s2 => Except.ok (v, s2, pr.2)
            | ReadOut.more s2 => read_until_status env fuel pr.2 s2
            | ReadOut.raised e => Except.error e

/-- `WiFiLink.collect_events` (wifi_link.py lines 108-113): one
non-blocking receive feeds `_drain_lines`, then the event queue is copied,
cleared, and returned. -/
def collect_events (env : PyEnv) (r : Recv) (s : LinkState) :
    Except PyErr (List PyVal × LinkState) :=
  match drainBuf env (s.recvBuf ++ recv_available r) s.events with
  | Except.error e => Except.error e
  | Except.ok (buf2, evs2) => Except.ok (evs2, ⟨buf2, []⟩)

/-- One call to `WiFiLink._send_all`: either a full JSON command line or a
raw unframed binary payload written onto the transport. -/
inductive Write where
  | line : String → Write
  | raw : List Nat → Write

/-- The raw (unframed) payload bytes a write trace puts on the transport —
everything written outside line mode. -/
def payloadBytes (ws : List Write) : List Nat :=
  (ws.filterMap (fun w =>
    match w with
    | Write.raw b => Option.some b
    | Write.line _ => Option.none)).flatten

/-- `WiFiLink.send_cmd` (wifi_link.py lines 83-87): serialize the command
with `json.dumps` (the external serializer is the `dumps` parameter), write
it as one line, then block in `_read_until_status`. Returns the write
trace, the response, the final state and the unconsumed receive script. -/
def send_cmd (env : PyEnv) (dumps : PyVal → String) (fuel : Nat) (ins : List Recv)
    (s : LinkState) (cmd : PyVal) :
    Except PyErr (List Write × PyVal × LinkState × List Recv) :=
  match read_until_status env fuel ins s with
  | Except.error e => Except.error e
  | Except.ok (v, s2, ins2) =>
      Except.ok ([Write.line (dumps cmd ++ "\n")], v, s2, ins2)

/-- The exact phase-1 command text `json.dumps({"cmd":"image","len":n},
separators=(",",":"))` produced at wifi_link.py line 94. -/
def imageCmdString (n : Nat) : String :=
  "\x7b\"cmd\":\"image\",\"len\":" ++ toString n ++ "\x7d"

/-- Python `resp.get("status") != "ready"` is false exactly when the looked
up value is the string `"ready"`. -/
def isReadyStatus : Option PyVal → Bool
  | Option.some (PyVal.str s) => s == "ready"
  | _ => false

/-- `WiFiLink.send_jpeg` (wifi_link.py lines 89-106): phase 1 writes
`{"cmd":"image","len":N}` and awaits a response; any status other than
`"ready"` returns that response at once; otherwise phase 2 writes the raw
payload and phase 3 awaits and returns the final response. `fuel1` and
`fuel2` are the two per-phase deadlines (3 s and 10 s). -/
def send_jpeg (env : PyEnv) (fuel1 fuel2 : Nat) (ins : List Recv) (s : LinkState)
    (jpeg : List Nat) :
    Except PyErr (List Write × PyVal × LinkState × List Recv) :=
  let cmdW := Write.line (imageCmdString jpeg.length ++ "\n")
  match read_until_status env fuel1 ins s with
  | Except.error e => Except.error e
  | Except.ok (r1, s1, ins1) =>
      match pyGet r1 "status" with
      | Except.error e => Except.error e
      | Except.ok sv =>
          if isReadyStatus sv then
            match read_until_status env fuel2 ins1 s1 with
            | Except.error e => Except.error e
            | Except.ok (r2, s2, ins2) =>
                Except.ok ([cmdW, Write.raw jpeg], r2, s2, ins2)
          else
            Except.ok ([cmdW], r1, s1, ins1)

/-- mouth_sync.py line 42: frame duration in milliseconds. -/
def FRAME_MS : Nat := 30

/-- mouth_sync.py line 46: exponential-moving-average smoothing factor
(0.35). -/
def SMOOTH_ALPHA : ℚ := 35 / 100

/-- mouth_sync.py line 57: minimum openness sent. -/
def MIN_OPEN : ℚ := 0

/-- mouth_sync.py line 60: maximum openness cap. -/
def MAX_OPEN : ℚ := 1

/-- mouth_sync.py line 63: normalized RMS below this is forced to zero. -/
def SILENCE_THRESHOLD : ℚ := 2 / 100

/-- Python `max(xs)` on a nonempty list (the callers guard emptiness). -/
def pyMax : List ℚ → ℚ
  | [] => 0
  | a :: as => as.foldl max a

/-- mouth_sync.py lines 115-118: divide every per-frame RMS value by the
clip's own peak RMS when that peak is positive. -/
def normalizeAmps (amps : List ℚ) : List ℚ :=
  let peak := pyMax amps
  if 0 < peak then amps.map (fun a => a / peak) else amps

/-- mouth_sync.py lines 126-132: single-pole exponential moving average,
`val = SMOOTH_ALPHA * prev + (1 - SMOOTH_ALPHA) * a` with `prev`
starting at 0. -/
def emaSmooth (amps : List ℚ) : List ℚ :=
  (amps.foldl (fun (acc : List ℚ × ℚ) a =>
    let val := SMOOTH_ALPHA * acc.2 + (1 - SMOOTH_ALPHA) * a
    (acc.1 ++ [val], val)) ([], 0)).1

/-- The `while last_sound > 0 and smoothed[last_sound] < 0.01` scan of
mouth_sync.py lines 139-141, started at index `i`. -/
def lastSoundFrom (l : List ℚ) : Nat → Nat
  | 0 => 0
  | i + 1 => if l.getD (i + 1) 0 < 1 / 100 then lastSoundFrom l i else i + 1

/-- mouth_sync.py lines 137-145: trim trailing near-silence, keeping up to
three extra frames after the last audible one. -/
def trimTail (l : List ℚ) : List ℚ :=
  let lastSound := lastSoundFrom l (l.length - 1)
  let keep := min (l.length - 1) (lastSound + 3)
  l.take (keep + 1)

/-- Python `int(q)`: truncation toward zero. -/
def pyInt (q : ℚ) : Int :=
  if 0 ≤ q then ⌊q⌋ else ⌈q⌉

/-- mouth_sync.py lines 147-152: cap the envelope at
`int(audio_duration_s * 0.7 * 1000 / frame_ms)` frames, but only when that
target is positive and the envelope is longer than it. -/
def rescaleEnv (l : List ℚ) (audio_s : ℚ) (frame_ms : Nat) : List ℚ :=
  let target_frames := pyInt (audio_s * (7 / 10) * 1000 / (frame_ms : ℚ))
  if (l.length : Int) > target_frames ∧ 0 < target_frames then
    l.take target_frames.toNat
  else l

/-- The envelope pipeline of `analyze_audio` (mouth_sync.py lines 98-154)
from the per-frame RMS stage onward. `amplitudes` is the list of per-frame
RMS values (the output of the numpy loop at lines 101-110, nonnegative by
construction) and `audio_s` the measured audio duration in seconds.
`powc` stands for the power-curve map `a ↦ a ** POWER_CURVE`
(`POWER_CURVE = 0.6`, line 121); it is kept as a function parameter
because an irrational power has no exact rational form — every other
stage is exact rational arithmetic. An empty amplitude list returns the
empty envelope (line 112). -/
def analyze_audio_env (powc : ℚ → ℚ) (amplitudes : List ℚ) (audio_s : ℚ)
    (frame_ms : Nat) : List ℚ :=
  if amplitudes = [] then []
  else
    let normalized := normalizeAmps amplitudes
    let powered := normalized.map powc
    let gated := powered.map (fun a => if SILENCE_THRESHOLD < a then a else 0)
    let smoothed := emaSmooth gated
    let clamped := smoothed.map (fun v => max MIN_OPEN (min MAX_OPEN v))
    rescaleEnv (trimTail clamped) audio_s frame_ms

/-- A rational stand-in for the power-curve map `a ↦ a ** 0.6` valid at the
fixed points 0 and 1: `0 ** 0.6 = 0` and `1 ** 0.6 = 1`, so on inputs that
are all 0 or 1 the identity reproduces the float computation exactly. -/
def powCurveFix : ℚ → ℚ := fun a => a

/-- The frame loop of `animate_mouth` (mouth_sync.py lines 198-211),
returning the openness arguments passed to `_send_mouth` in order: each
iteration first checks the stop event (`stop i` is
`stop_event.is_set()` at frame `i`), breaking out early; on loop exit —
break or exhaustion — the final fully-closed frame `0.0` is sent. -/
def mouthLoop (stop : Nat → Bool) : List ℚ → Nat → List ℚ
  | [], _ => [0]
  | a :: rest, i => if stop i then [0] else a :: mouthLoop stop rest (i + 1)

/-- `animate_mouth` (mouth_sync.py lines 178-213) as the trace of openness
values passed to `_send_mouth`: an empty amplitude list returns before any
send (lines 190-191); otherwise the frame loop runs and always ends with
the closing send (line 211). -/
def animate_mouth (amplitudes : List ℚ) (stop : Nat → Bool) : List ℚ :=
  if amplitudes = [] then [] else mouthLoop stop amplitudes 0

/-- The frames the loop body of `animate_mouth` sends (without the trailing
close): frame `i` is sent only if the stop event is still unset at `i`. -/
def framesSent (stop : Nat → Bool) : List ℚ → Nat → List ℚ
  | [], _ => []
  | a :: rest, i => if stop i then [] else a :: framesSent stop rest (i + 1)

/-- Serialize newline-terminated lines into one byte stream, the way the
device emits protocol traffic. -/
def joinLines (ls : List (List Nat)) : List Nat :=
  (ls.map (fun l => l ++ [10])).flatten

/-- A line is benign for the response wait when handling it neither returns
a response nor raises: it is skipped or appended as an event. -/
def benignLine (env : PyEnv) (l : List Nat) : Bool :=
  match classifyLine env l with
  | LineClass.skip => true
  | LineClass.event _ => true
  | LineClass.response _ => false
  | LineClass.err _ => false

/-- The event values a list of lines contributes to the event queue, in
order. -/
def eventsOf (env : PyEnv) (ls : List (List Nat)) : List PyVal :=
  ls.filterMap (fun l =>
    match classifyLine env l with
    | LineClass.event v => Option.some v
    | _ => Option.none)

/-- A concrete `bytes.decode` for witnesses: the streams used there are
pure ASCII, where UTF-8 decoding is the identity on code points. -/
def asciiDecode (bs : List Nat) : String :=
  String.mk (bs.map Char.ofNat)

/-- A concrete `json.loads` table for witnesses, covering the handful of
device lines they use (`none` is a `json.JSONDecodeError`). -/
def loadsW : String → Option PyVal := fun s =>
  if s = "e1" then Option.some (PyVal.dict [("event", PyVal.str "touch")])
  else if s = "e2" then Option.some (PyVal.dict [("event", PyVal.str "button")])
  else if s = "ok" then Option.some (PyVal.dict [("status", PyVal.str "ok")])
  else if s = "busy" then Option.some (PyVal.dict [("status", PyVal.str "busy")])
  else if s = "rdy" then Option.some (PyVal.dict [("status", PyVal.str "ready")])
  else if s = "5" then Option.some (PyVal.int 5)
  else Option.none

/-- The concrete decode/parse environment used by the witnesses. -/
def envW : PyEnv := ⟨asciiDecode, loadsW⟩

theorem processBuf_none (env : PyEnv) {buf : List Nat}
    (h : splitFirst buf = Option.none) (evs : List PyVal) :
    processBuf env buf evs = ReadOut.more ⟨buf, evs⟩ := by
  rw [processBuf.eq_def, h]

theorem processBuf_some (env : PyEnv) {buf l r : List Nat}
    (h : splitFirst buf = Option.some (l, r)) (evs : List PyVal) :
    processBuf env buf evs =
      match classifyLine env l with
      | LineClass.skip => processBuf env r evs
      | LineClass.event v => processBuf env r (evs ++ [v])
      | LineClass.response v => ReadOut.found v ⟨r, evs⟩
      | LineClass.err e => ReadOut.raised e := by
  rw [processBuf.eq_def, h]

theorem drainBuf_none (env : PyEnv) {buf : List Nat}
    (h : splitFirst buf = Option.none) (evs : List PyVal) :
    drainBuf env buf evs = Except.ok (buf, evs) := by
  rw [drainBuf.eq_def, h]

theorem drainBuf_some (env : PyEnv) {buf l r : List Nat}
    (h : splitFirst buf = Option.some (l, r)) (evs : List PyVal) :
    drainBuf env buf evs =
      match drainLine env l with
      | Except.error e => Except.error e
      | Except.ok Option.none => drainBuf env r evs
      | Except.ok (Option.some v) => drainBuf env r (evs ++ [v]) := by
  rw [drainBuf.eq_def, h]

theorem extractLines_none {buf : List Nat} (h : splitFirst buf = Option.none) :
    extractLines buf = ([], buf) := by
  rw [extractLines.eq_def, h]

theorem extractLines_some {buf l r : List Nat}
    (h : splitFirst buf = Option.some (l, r)) :
    extractLines buf = (l :: (extractLines r).1, (extractLines r).2) := by
  rw [extractLines.eq_def, h]

theorem processBuf_skip (env : PyEnv) {buf l r : List Nat}
    (h : splitFirst buf = Option.some (l, r))
    (hcl : classifyLine env l = LineClass.skip) (evs : List PyVal) :
    processBuf env buf evs = processBuf env r evs := by
  rw [processBuf_some env h, hcl]

theorem processBuf_event (env : PyEnv) {buf l r : List Nat} {v : PyVal}
    (h : splitFirst buf = Option.some (l, r))
    (hcl : classifyLine env l = LineClass.event v) (evs : List PyVal) :
    processBuf env buf evs = processBuf env r (evs ++ [v]) := by
  rw [processBuf_some env h, hcl]

theorem processBuf_response (env : PyEnv) {buf l r : List Nat} {v : PyVal}
    (h : splitFirst buf = Option.some (l, r))
    (hcl : classifyLine env l = LineClass.response v) (evs : List PyVal) :
    processBuf env buf evs = ReadOut.found v ⟨r, evs⟩ := by
  rw [processBuf_some env h, hcl]

theorem processBuf_raised (env : PyEnv) {buf l r : List Nat} {e : PyErr}
    (h : splitFirst buf = Option.some (l, r))
    (hcl : classifyLine env l = LineClass.err e) (evs : List PyVal) :
    processBuf env buf evs = ReadOut.raised e := by
  rw [processBuf_some env h, hcl]

theorem splitFirst_line : ∀ {l : List Nat}, (10 : Nat) ∉ l →
    ∀ (rest : List Nat), splitFirst (l ++ 10 :: rest) = Option.some (l, rest) := by
  intro l
  induction l with
  | nil => intro _ rest; simp [splitFirst]
  | cons b bs ih =>
      intro h rest
      simp only [List.mem_cons, not_or] at h
      have hb : ¬ b = 10 := fun e => h.1 e.symm
      simp only [List.cons_append, splitFirst, List.append_eq, if_neg hb,
        ih h.2 rest, Option.map_some']

theorem splitFirst_append : ∀ {a l r : List Nat} (b : List Nat),
    splitFirst a = Option.some (l, r) →
    splitFirst (a ++ b) = Option.some (l, r ++ b) := by
  intro a
  induction a with
  | nil => intro l r b h; simp [splitFirst] at h
  | cons x xs ih =>
      intro l r b h
      simp only [splitFirst] at h
      simp only [List.cons_append, splitFirst, List.append_eq]
      by_cases hx : x = 10
      · rw [if_pos hx] at h
        cases h
        rw [if_pos hx]
      · rw [if_neg hx] at h
        rw [if_neg hx]
        match hs : splitFirst xs with
        | Option.none => rw [hs] at h; simp at h
        | Option.some (l2, r2) =>
            rw [hs] at h
            simp only [Option.map_some'] at h
            cases h
            rw [ih b hs]
            simp

theorem extractLines_rem_aux : ∀ (n : Nat) (buf : List Nat), buf.length ≤ n →
    splitFirst (extractLines buf).2 = Option.none := by
  intro n
  induction n with
  | zero =>
      intro buf h
      have hb : buf = [] := List.length_eq_zero.mp (Nat.le_zero.mp h)
      subst hb
      rw [extractLines_none (show splitFirst [] = Option.none from rfl)]
      rfl
  | succ n ih =>
      intro buf h
      match hs : splitFirst buf with
      | Option.none => rw [extractLines_none hs]; exact hs
      | Option.some (l, r) =>
          rw [extractLines_some hs]
          exact ih r (by have := splitFirst_rest_length hs; omega)

theorem extractLines_rem (buf : List Nat) :
    splitFirst (extractLines buf).2 = Option.none :=
  extractLines_rem_aux buf.length buf le_rfl

theorem extractLines_append_aux : ∀ (n : Nat) (a b : List Nat), a.length ≤ n →
    extractLines (a ++ b) =
      ((extractLines a).1 ++ (extractLines ((extractLines a).2 ++ b)).1,
       (extractLines ((extractLines a).2 ++ b)).2) := by
  intro n
  induction n with
  | zero =>
      intro a b h
      have ha : a = [] := List.length_eq_zero.mp (Nat.le_zero.mp h)
      subst ha
      simp [extractLines_none (show splitFirst [] = Option.none from rfl)]
  | succ n ih =>
      intro a b h
      match hs : splitFirst a with
      | Option.none =>
          rw [extractLines_none hs]
          simp
      | Option.some (l, r) =>
          rw [extractLines_some (splitFirst_append b hs), extractLines_some hs]
          rw [ih r b (by have := splitFirst_rest_length hs; omega)]
          simp

theorem extractLines_append (a b : List Nat) :
    extractLines (a ++ b) =
      ((extractLines a).1 ++ (extractLines ((extractLines a).2 ++ b)).1,
       (extractLines ((extractLines a).2 ++ b)).2) :=
  extractLines_append_aux a.length a b le_rfl

theorem feedAll_flatten : ∀ (chunks : List (List Nat)) (buf : List Nat),
    splitFirst buf = Option.none →
    feedAll buf chunks = extractLines (buf ++ chunks.flatten) := by
  intro chunks
  induction chunks with
  | nil =>
      intro buf h
      simp [feedAll, extractLines_none h]
  | cons c cs ih =>
      intro buf h
      simp only [feedAll]
      rw [ih _ (extractLines_rem _)]
      rw [List.flatten_cons, ← List.append_assoc]
      rw [extractLines_append (buf ++ c) cs.flatten]

theorem processBuf_events (env : PyEnv) {evLines : List (List Nat)}
    {evVals : List PyVal}
    (hev : List.Forall₂
      (fun l v => (10 : Nat) ∉ l ∧ classifyLine env l = LineClass.event v)
      evLines evVals) :
    ∀ (tail : List Nat) (evs : List PyVal),
      processBuf env (joinLines evLines ++ tail) evs =
        processBuf env tail (evs ++ evVals) := by
  induction hev with
  | nil => intro tail evs; simp [joinLines]
  | @cons l v ls vs hlv _ ih =>
      intro tail evs
      obtain ⟨hnl, hcl⟩ := hlv
      have hjoin : joinLines (l :: ls) ++ tail = l ++ 10 :: (joinLines ls ++ tail) := by
        simp [joinLines]
      rw [hjoin, processBuf_event env (splitFirst_line hnl _) hcl, ih]
      simp

theorem processBuf_benign (env : PyEnv) : ∀ (n : Nat) (buf : List Nat),
    buf.length ≤ n →
    (∀ l ∈ (extractLines buf).1, benignLine env l = true) →
    ∀ evs, processBuf env buf evs =
      ReadOut.more ⟨(extractLines buf).2, evs ++ eventsOf env (extractLines buf).1⟩ := by
  intro n
  induction n with
  | zero =>
      intro buf h _ evs
      have hb : buf = [] := List.length_eq_zero.mp (Nat.le_zero.mp h)
      subst hb
      rw [extractLines_none (show splitFirst [] = Option.none from rfl), processBuf_none env (show splitFirst [] = Option.none from rfl)]
      simp [eventsOf]
  | succ n ih =>
      intro buf h hben evs
      match hs : splitFirst buf with
      | Option.none =>
          rw [processBuf_none env hs, extractLines_none hs]
          simp [eventsOf]
      | Option.some (l, r) =>
          rw [extractLines_some hs] at hben ⊢
          have hr : r.length ≤ n := by have := splitFirst_rest_length hs; omega
          have hbl : benignLine env l = true := hben l (List.mem_cons_self l _)
          have hbr : ∀ x ∈ (extractLines r).1, benignLine env x = true :=
            fun x hx => hben x (List.mem_cons_of_mem l hx)
          cases hcl : classifyLine env l with
          | skip =>
              rw [processBuf_skip env hs hcl, ih r hr hbr evs]
              simp [eventsOf, List.filterMap_cons, hcl]
          | event v =>
              rw [processBuf_event env hs hcl, ih r hr hbr (evs ++ [v])]
              simp [eventsOf, List.filterMap_cons, hcl]
          | response v => simp [benignLine, hcl] at hbl
          | err e => simp [benignLine, hcl] at hbl

theorem read_until_status_noline (env : PyEnv) : ∀ (fuel : Nat) (s : LinkState),
    splitFirst s.recvBuf = Option.none →
    read_until_status env fuel [] s = Except.ok (timeoutDict, s, []) := by
  intro fuel
  induction fuel with
  | zero => intro s _; rfl
  | succ n ih =>
      intro s h
      simp only [read_until_status, nextRecv]
      rw [processBuf_none env h]
      exact ih s h

/-- All the bytes a receive script will ever deliver. -/
def flattenData (ins : List Recv) : List Nat :=
  (ins.map recv_available).flatten

/-- A receive outcome that neither closes the connection (zero-length
read) nor raises `OSError`. -/
def noErrRecv : Recv → Bool
  | Recv.oserr => false
  | Recv.data b => !b.isEmpty
  | Recv.timedOut => true

theorem read_until_status_benign (env : PyEnv) : ∀ (fuel : Nat) (ins : List Recv)
    (s : LinkState),
    (∀ r ∈ ins, noErrRecv r = true) →
    (∀ l ∈ (extractLines (s.recvBuf ++ flattenData ins)).1, benignLine env l = true) →
    ∃ s2 ins2, read_until_status env fuel ins s = Except.ok (timeoutDict, s2, ins2) := by
  intro fuel
  induction fuel with
  | zero => intro ins s _ _; exact ⟨s, ins, rfl⟩
  | succ n ih =>
      intro ins s hne hben
      cases ins with
      | nil =>
          have hb : ∀ l ∈ (extractLines s.recvBuf).1, benignLine env l = true := by
            simpa [flattenData] using hben
          simp only [read_until_status, nextRecv]
          rw [processBuf_benign env s.recvBuf.length s.recvBuf le_rfl hb s.events]
          exact ⟨⟨(extractLines s.recvBuf).2,
            s.events ++ eventsOf env (extractLines s.recvBuf).1⟩, [],
            read_until_status_noline env n _ (extractLines_rem _)⟩
      | cons r rs =>
          have hstream : ∀ (a : List Nat),
              s.recvBuf ++ flattenData (r :: rs) = (s.recvBuf ++ a) ++ flattenData rs →
              (∀ l ∈ (extractLines (s.recvBuf ++ a)).1, benignLine env l = true)
              ∧ ∀ l ∈ (extractLines ((extractLines (s.recvBuf ++ a)).2 ++ flattenData rs)).1,
                  benignLine env l = true := by
            intro a ha
            rw [ha, extractLines_append (s.recvBuf ++ a) (flattenData rs)] at hben
            constructor
            · intro l hl
              exact hben l (List.mem_append_left _ hl)
            · intro l hl
              exact hben l (List.mem_append_right _ hl)
          have hne2 : ∀ x ∈ rs, noErrRecv x = true :=
            fun x hx => hne x (List.mem_cons_of_mem _ hx)
          cases r with
          | oserr => exact absurd (hne _ (List.mem_cons_self _ _)) (by simp [noErrRecv])
          | timedOut =>
              obtain ⟨hb1, hb2⟩ := hstream []
                (by simp [flattenData, recv_available])
              simp only [List.append_nil] at hb1 hb2
              simp only [read_until_status, nextRecv]
              rw [processBuf_benign env s.recvBuf.length s.recvBuf le_rfl hb1 s.events]
              exact ih rs _ hne2 hb2
          | data b =>
              have hbne : ¬ b = [] := by
                have h1 := hne _ (List.mem_cons_self _ _)
                intro hc
                subst hc
                simp [noErrRecv] at h1
              obtain ⟨hb1, hb2⟩ := hstream b
                (by simp [flattenData, recv_available])
              simp only [read_until_status, nextRecv]
              rw [if_neg hbne]
              rw [processBuf_benign env (s.recvBuf ++ b).length (s.recvBuf ++ b)
                le_rfl hb1 s.events]
              exact ih rs _ hne2 hb2

theorem mouthLoop_framesSent (stop : Nat → Bool) :
    ∀ (amps : List ℚ) (i : Nat),
      mouthLoop stop amps i = framesSent stop amps i ++ [0] := by
  intro amps
  induction amps with
  | nil => intro i; simp [mouthLoop, framesSent]
  | cons a rest ih =>
      intro i
      by_cases hs : stop i
      · simp [mouthLoop, framesSent, hs]
      · simp [mouthLoop, framesSent, hs, ih]

theorem rescaleEnv_length_le (l : List ℚ) (audio_s : ℚ) (frame_ms : Nat)
    (hf : 0 < frame_ms) (hd : (frame_ms : ℚ) ≤ audio_s * (7 / 10) * 1000) :
    ((rescaleEnv l audio_s frame_ms).length : ℚ) * (frame_ms : ℚ)
      ≤ (7 / 10) * (audio_s * 1000) := by
  have hfq : (0 : ℚ) < (frame_ms : ℚ) := by exact_mod_cast hf
  set x : ℚ := audio_s * (7 / 10) * 1000 / (frame_ms : ℚ) with hxdef
  have hx1 : (1 : ℚ) ≤ x := by
    rw [hxdef, le_div_iff₀ hfq]
    linarith
  have hx0 : (0 : ℚ) ≤ x := le_trans zero_le_one hx1
  have hrhs : x * (frame_ms : ℚ) = (7 / 10) * (audio_s * 1000) := by
    rw [hxdef]
    field_simp
    ring
  have ht1 : (1 : ℤ) ≤ ⌊x⌋ := by
    rw [Int.le_floor]
    exact_mod_cast hx1
  have htle : ((⌊x⌋ : ℤ) : ℚ) ≤ x := Int.floor_le _
  have htmul : ((⌊x⌋ : ℤ) : ℚ) * (frame_ms : ℚ) ≤ (7 / 10) * (audio_s * 1000) := by
    rw [← hrhs]
    exact mul_le_mul_of_nonneg_right htle (le_of_lt hfq)
  simp only [rescaleEnv, pyInt, ← hxdef, if_pos hx0]
  split
  · next h =>
      obtain ⟨hgt, hpos⟩ := h
      have hnat : ⌊x⌋.toNat ≤ l.length := by omega
      rw [List.length_take, Nat.min_eq_left hnat]
      have hc : ((⌊x⌋.toNat : Nat) : ℚ) = ((⌊x⌋ : ℤ) : ℚ) := by
        have h0 : (0 : ℤ) ≤ ⌊x⌋ := by omega
        rw [← Int.toNat_of_nonneg h0]
        push_cast
        rw [Int.toNat_of_nonneg h0]
      rw [hc]
      exact htmul
  · next h =>
      have hlen : (l.length : ℤ) ≤ ⌊x⌋ := by
        by_contra hcon
        exact h ⟨by omega, by omega⟩
      have hlenq : ((l.length : Nat) : ℚ) ≤ ((⌊x⌋ : ℤ) : ℚ) := by exact_mod_cast hlen
      calc ((l.length : Nat) : ℚ) * (frame_ms : ℚ)
          ≤ ((⌊x⌋ : ℤ) : ℚ) * (frame_ms : ℚ) :=
            mul_le_mul_of_nonneg_right hlenq (le_of_lt hfq)
        _ ≤ (7 / 10) * (audio_s * 1000) := htmul

/-- C8 counterexample: for the 0.04 s constant full-scale clip (the RMS
stage yields the single frame `[1]`, and `1 ** 0.6 = 1` so the identity
stand-in reproduces the float power curve exactly) with the default 30 ms
frames, the envelope keeps 1 frame: 1 × 30 ms = 30 ms, which exceeds
0.7 × 40 ms = 28 ms, because `int(0.7 * 40 / 30) = 0` disables the
truncation (`target_frames > 0` fails). -/
theorem c8_counterexample :
    ¬ (((analyze_audio_env powCurveFix [1] (1 / 25) 30).length : ℚ) * ((30 : Nat) : ℚ)
      ≤ (7 / 10) * ((1 / 25) * 1000)) := by
  have h : analyze_audio_env powCurveFix [1] (1 / 25) 30 = [13 / 20] := by
    norm_num [analyze_audio_env, normalizeAmps, pyMax, emaSmooth, trimTail,
      lastSoundFrom, rescaleEnv, pyInt, SMOOTH_ALPHA, SILENCE_THRESHOLD,
      MIN_OPEN, MAX_OPEN, powCurveFix]
  rw [h]
  norm_num

/-- C8 (amended): provided 0.7 × the audio duration is at least one frame
period (so the truncation target `int(0.7 * duration / frame_ms)` is
positive), the envelope emitted by `analyze_audio` corresponds to at most
0.7 × the audio duration of wall-clock animation time:
`len(envelope) * frame_ms ≤ 0.7 * duration`. -/
theorem c8_amended (powc : ℚ → ℚ) (amps : List ℚ) (audio_s : ℚ) (frame_ms : Nat)
    (hf : 0 < frame_ms) (hd : (frame_ms : ℚ) ≤ audio_s * (7 / 10) * 1000) :
    ((analyze_audio_env powc amps audio_s frame_ms).length : ℚ) * (frame_ms : ℚ)
      ≤ (7 / 10) * (audio_s * 1000) := by
  have hfq : (0 : ℚ) < (frame_ms : ℚ) := by exact_mod_cast hf
  by_cases hemp : amps = []
  · simp only [analyze_audio_env, if_pos hemp, List.length_nil, Nat.cast_zero,
      zero_mul]
    nlinarith
  · simp only [analyze_audio_env, if_neg hemp]
    exact rescaleEnv_length_le _ _ _ hf hd

theorem c8_witness :
    ((analyze_audio_env powCurveFix [1] 2 30).length : ℚ) * ((30 : Nat) : ℚ)
      ≤ (7 / 10) * (2 * 1000) :=
  c8_amended powCurveFix [1] 2 30 (by decide) (by norm_num)

/-- C1 (code bug witnessed): the byte line `b"5\n"` parses as JSON (the
number `5`) and carries neither an `event` nor a `status` key, so per the
classification rule it should be silently discarded; instead both the
response wait (`_read_until_status`) and the event harvest (`_drain_lines`
via `collect_events`) raise `TypeError` from `"event" in msg`, because only
`json.JSONDecodeError` is caught and `in` is not defined on `int`. -/
theorem c1_numeric_line_raises :
    read_until_status envW 1 [Recv.data [53, 10]] ⟨[], []⟩ =
      Except.error PyErr.typeError
    ∧ collect_events envW (Recv.data [53, 10]) ⟨[], []⟩ =
      Except.error PyErr.typeError := by
  constructor
  · simp [read_until_status, nextRecv, processBuf, classifyLine, pyStrip, envW,
      asciiDecode, loadsW, pyContains, splitFirst]
  · simp [collect_events, recv_available, drainBuf, drainLine, classifyLine,
      pyStrip, envW, asciiDecode, loadsW, pyContains, splitFirst]

/-- C6 (amended): a zero-length read on the blocking wait path
(`_read_until_status`) is surfaced as the distinct error response
`{"status":"error","msg":"connection closed"}`; the non-blocking harvest
path does not surface it (see the counterexample). -/
theorem c6_blocking_read_surfaces_close (env : PyEnv) (fuel : Nat)
    (ins : List Recv) (s : LinkState) :
    read_until_status env (fuel + 1) (Recv.data [] :: ins) s =
      Except.ok (connClosedDict, s, ins)
    ∧ connClosedDict ≠ timeoutDict := by
  constructor
  · simp [read_until_status, nextRecv]
  · simp [connClosedDict, timeoutDict]

/-- C6 counterexample: on the non-blocking read path
(`_recv_available` feeding `collect_events`), a closed connection
(zero-length `recv`, `Recv.data []`) produces exactly the same ordinary,
error-free result as a read that merely found no data — refuting the part
of the claim that says the closed connection is surfaced as a distinct
error there too. -/
theorem c6_counterexample :
    collect_events envW (Recv.data []) ⟨[], []⟩ = Except.ok ([], ⟨[], []⟩)
    ∧ collect_events envW Recv.timedOut ⟨[], []⟩ = Except.ok ([], ⟨[], []⟩) := by
  constructor <;> simp [collect_events, recv_available, drainBuf, splitFirst]

/-- C7: feeding a byte stream through the carry-over line framer in
arbitrary chunks yields exactly the same classified line sequence (events,
responses, malformed lines) and the same final carry buffer as feeding the
whole stream as one chunk. -/
theorem c7_chunking_independence (env : PyEnv) (chunks : List (List Nat)) :
    (feedAll [] chunks).1.map (classifyLine env) =
      (extractLines chunks.flatten).1.map (classifyLine env)
    ∧ (feedAll [] chunks).2 = (extractLines chunks.flatten).2 := by
  have h := feedAll_flatten chunks [] rfl
  rw [List.nil_append] at h
  exact ⟨by rw [h], by rw [h]⟩

/-- C9: whenever `animate_mouth` exits its frame loop — normal completion
or cancellation via the stop event — the send trace is the loop-body frames
followed by exactly one trailing fully-closed (value 0) send. -/
theorem c9_trailing_close (amplitudes : List ℚ) (stop : Nat → Bool)
    (h : amplitudes ≠ []) :
    animate_mouth amplitudes stop = framesSent stop amplitudes 0 ++ [0]
    ∧ (animate_mouth amplitudes stop).getLast? = Option.some 0 := by
  have h1 : animate_mouth amplitudes stop = mouthLoop stop amplitudes 0 := by
    simp [animate_mouth, h]
  rw [h1, mouthLoop_framesSent]
  exact ⟨rfl, by simp⟩

theorem c9_witness :
    animate_mouth [1/2] (fun _ => false) = framesSent (fun _ => false) [1/2] 0 ++ [0]
    ∧ (animate_mouth [1/2] (fun _ => false)).getLast? = Option.some 0 :=
  c9_trailing_close [1/2] (fun _ => false) (by decide)

/-- C10: calling `animate_mouth` with an empty amplitude list performs no
send at all — in particular no final closed frame — unlike every non-empty
invocation, whose trace is non-empty and ends with the closed (value 0)
send. -/
theorem c10_empty_no_send (stop : Nat → Bool) :
    animate_mouth [] stop = []
    ∧ ∀ (amps : List ℚ) (stop2 : Nat → Bool), amps ≠ [] →
        animate_mouth amps stop2 ≠ []
        ∧ (animate_mouth amps stop2).getLast? = Option.some 0 := by
  constructor
  · simp [animate_mouth]
  · intro amps stop2 h
    have h1 : animate_mouth amps stop2 = mouthLoop stop2 amps 0 := by
      simp [animate_mouth, h]
    rw [h1, mouthLoop_framesSent]
    exact ⟨by simp, by simp⟩

theorem c10_witness :
    animate_mouth [] (fun _ => true) = []
    ∧ animate_mouth [9/10] (fun _ => true) ≠ []
    ∧ (animate_mouth [9/10] (fun _ => true)).getLast? = Option.some 0 :=
  ⟨(c10_empty_no_send (fun _ => true)).1,
   ((c10_empty_no_send (fun _ => true)).2 [9/10] (fun _ => true) (by decide)).1,
   ((c10_empty_no_send (fun _ => true)).2 [9/10] (fun _ => true) (by decide)).2⟩

/-- C2: when N event lines arrive before one response line while
`send_cmd` awaits its response, `send_cmd` returns exactly that response,
every event encountered is appended to the queue in arrival order, and the
next `collect_events` (with no new input) returns exactly those N events
and clears the queue. -/
theorem c2_events_preserved (env : PyEnv) (dumps : PyVal → String) (fuel : Nat)
    (cmd : PyVal) (evLines : List (List Nat)) (evVals : List PyVal)
    (respLine : List Nat) (resp : PyVal)
    (hev : List.Forall₂
      (fun l v => (10 : Nat) ∉ l ∧ classifyLine env l = LineClass.event v)
      evLines evVals)
    (hnl : (10 : Nat) ∉ respLine)
    (hresp : classifyLine env respLine = LineClass.response resp) :
    send_cmd env dumps (fuel + 1)
        [Recv.data (joinLines (evLines ++ [respLine]))] ⟨[], []⟩ cmd
      = Except.ok ([Write.line (dumps cmd ++ "\n")], resp, ⟨[], evVals⟩, [])
    ∧ collect_events env Recv.timedOut ⟨[], evVals⟩ =
        Except.ok (evVals, ⟨[], []⟩) := by
  have hp : processBuf env (joinLines (evLines ++ [respLine])) [] =
      ReadOut.found resp ⟨[], evVals⟩ := by
    have hj : joinLines (evLines ++ [respLine]) =
        joinLines evLines ++ (respLine ++ 10 :: []) := by
      simp [joinLines]
    rw [hj, processBuf_events env hev (respLine ++ 10 :: []) [],
      processBuf_response env (splitFirst_line hnl []) hresp]
    simp
  constructor
  · have hnem : joinLines (evLines ++ [respLine]) ≠ [] := by
      simp [joinLines]
    simp only [send_cmd, read_until_status, nextRecv, List.nil_append]
    rw [if_neg hnem, hp]
  · simp only [collect_events, recv_available, List.append_nil, List.nil_append]
    rw [drainBuf_none env (show splitFirst [] = Option.none from rfl)]

theorem c2_witness :
    send_cmd envW (fun _ => "c") 1
        [Recv.data (joinLines ([[101, 49], [101, 50]] ++ [[111, 107]]))] ⟨[], []⟩
        (PyVal.dict [("cmd", PyVal.str "ping")])
      = Except.ok ([Write.line ((fun (_ : PyVal) => "c") (PyVal.dict [("cmd", PyVal.str "ping")]) ++ "\n")],
          PyVal.dict [("status", PyVal.str "ok")],
          ⟨[], [PyVal.dict [("event", PyVal.str "touch")],
                PyVal.dict [("event", PyVal.str "button")]]⟩, [])
    ∧ collect_events envW Recv.timedOut
        ⟨[], [PyVal.dict [("event", PyVal.str "touch")],
              PyVal.dict [("event", PyVal.str "button")]]⟩ =
        Except.ok ([PyVal.dict [("event", PyVal.str "touch")],
                    PyVal.dict [("event", PyVal.str "button")]], ⟨[], []⟩) :=
  c2_events_preserved envW (fun _ => "c") 0 (PyVal.dict [("cmd", PyVal.str "ping")])
    [[101, 49], [101, 50]]
    [PyVal.dict [("event", PyVal.str "touch")], PyVal.dict [("event", PyVal.str "button")]]
    [111, 107] (PyVal.dict [("status", PyVal.str "ok")])
    (List.Forall₂.cons ⟨by decide, rfl⟩ (List.Forall₂.cons ⟨by decide, rfl⟩ List.Forall₂.nil))
    (by decide) rfl

/-- C3 counterexample: the stream consisting of the single noise line
`b"5\n"` contains no line with a `status` key, so per the claim the
deadline should elapse and `send_cmd` should return the
`{"status":"timeout"}` sentinel; instead the uncaught `TypeError` from
`"event" in 5` propagates out of `send_cmd` (the C1 code bug), refuting
the claim as stated. -/
theorem c3_counterexample :
    send_cmd envW (fun _ => "c") 2 [Recv.data [53, 10]] ⟨[], []⟩
        (PyVal.dict [("cmd", PyVal.str "ping")])
      = Except.error PyErr.typeError := by
  simp [send_cmd, read_until_status, nextRecv, processBuf, classifyLine,
    pyStrip, envW, asciiDecode, loadsW, pyContains, splitFirst]

/-- C3 (amended): for every command and every receive script that neither
closes the connection nor raises `OSError`, if every complete line
received before the deadline is benign — an event or silently-discarded
noise, so in particular no status line and no bare-scalar JSON line (the
C1 `TypeError` bug) arrives — then `send_cmd` returns the sentinel
`{"status":"timeout"}` normally instead of raising. -/
theorem c3_timeout_sentinel (env : PyEnv) (dumps : PyVal → String) (fuel : Nat)
    (ins : List Recv) (s : LinkState) (cmd : PyVal)
    (hne : ∀ r ∈ ins, noErrRecv r = true)
    (hben : ∀ l ∈ (extractLines (s.recvBuf ++ flattenData ins)).1,
      benignLine env l = true) :
    ∃ s2 ins2, send_cmd env dumps fuel ins s cmd
      = Except.ok ([Write.line (dumps cmd ++ "\n")], timeoutDict, s2, ins2) := by
  obtain ⟨s2, ins2, h⟩ := read_until_status_benign env fuel ins s hne hben
  exact ⟨s2, ins2, by rw [send_cmd, h]⟩

theorem c3_witness :
    ∃ s2 ins2, send_cmd envW (fun _ => "c") 2
        [Recv.data [104, 101, 108], Recv.timedOut, Recv.data [108, 111, 10]]
        ⟨[], []⟩ (PyVal.dict [("cmd", PyVal.str "ping")])
      = Except.ok ([Write.line ((fun (_ : PyVal) => "c") (PyVal.dict [("cmd", PyVal.str "ping")]) ++ "\n")],
          timeoutDict, s2, ins2) :=
  c3_timeout_sentinel envW (fun _ => "c") 2
    [Recv.data [104, 101, 108], Recv.timedOut, Recv.data [108, 111, 10]]
    ⟨[], []⟩ (PyVal.dict [("cmd", PyVal.str "ping")])
    (by decide)
    (by
      intro l hl
      have he : extractLines
          (([] : List Nat) ++ flattenData
            [Recv.data [104, 101, 108], Recv.timedOut, Recv.data [108, 111, 10]])
          = ([[104, 101, 108, 108, 111]], []) := by
        simp [flattenData, recv_available, extractLines, splitFirst]
      rw [he] at hl
      simp only [List.mem_singleton] at hl
      subst hl
      rfl)

/-- C4: if the phase-1 response of `send_jpeg` has any status other than
`"ready"` (busy, error, or the timeout sentinel), `send_jpeg` returns that
response unchanged, writes zero payload bytes to the transport, and does
not consume any further input (no second response wait). -/
theorem c4_not_ready_aborts (env : PyEnv) (fuel1 fuel2 : Nat) (ins : List Recv)
    (s : LinkState) (jpeg : List Nat) (r : PyVal) (s1 : LinkState)
    (ins1 : List Recv) (sv : Option PyVal)
    (h1 : read_until_status env fuel1 ins s = Except.ok (r, s1, ins1))
    (h2 : pyGet r "status" = Except.ok sv)
    (h3 : isReadyStatus sv = false) :
    send_jpeg env fuel1 fuel2 ins s jpeg =
      Except.ok ([Write.line (imageCmdString jpeg.length ++ "\n")], r, s1, ins1)
    ∧ payloadBytes [Write.line (imageCmdString jpeg.length ++ "\n")] = [] := by
  constructor
  · simp only [send_jpeg, h1, h2, h3]
    simp
  · rfl

theorem c4_witness :
    send_jpeg envW 1 1 [Recv.data [98, 117, 115, 121, 10]] ⟨[], []⟩ [1, 2, 3] =
      Except.ok ([Write.line (imageCmdString 3 ++ "\n")],
        PyVal.dict [("status", PyVal.str "busy")], ⟨[], []⟩, [])
    ∧ payloadBytes [Write.line (imageCmdString 3 ++ "\n")] = [] :=
  c4_not_ready_aborts envW 1 1 [Recv.data [98, 117, 115, 121, 10]] ⟨[], []⟩ [1, 2, 3]
    (PyVal.dict [("status", PyVal.str "busy")]) ⟨[], []⟩ []
    (Option.some (PyVal.str "busy"))
    (by simp [read_until_status, nextRecv, processBuf, classifyLine, pyStrip,
      envW, asciiDecode, loadsW, pyContains, splitFirst])
    rfl rfl

/-- C5: a zero-length payload is legal: `send_jpeg b""` still sends the
exact command `{"cmd":"image","len":0}`, awaits the ready response, writes
an empty raw payload (zero payload bytes), then awaits and returns the
final response. -/
theorem c5_zero_length_full_sequence (env : PyEnv) (fuel1 fuel2 : Nat)
    (ins : List Recv) (s : LinkState) (r1 : PyVal) (s1 : LinkState)
    (ins1 : List Recv) (r2 : PyVal) (s2 : LinkState) (ins2 : List Recv)
    (h1 : read_until_status env fuel1 ins s = Except.ok (r1, s1, ins1))
    (h2 : pyGet r1 "status" = Except.ok (Option.some (PyVal.str "ready")))
    (h3 : read_until_status env fuel2 ins1 s1 = Except.ok (r2, s2, ins2)) :
    send_jpeg env fuel1 fuel2 ins s [] =
      Except.ok ([Write.line (imageCmdString 0 ++ "\n"), Write.raw []], r2, s2, ins2)
    ∧ imageCmdString 0 = "\x7b\"cmd\":\"image\",\"len\":0\x7d"
    ∧ payloadBytes [Write.line (imageCmdString 0 ++ "\n"), Write.raw []] = [] := by
  refine ⟨?_, rfl, rfl⟩
  simp only [send_jpeg, h1, h2, h3]
  simp [isReadyStatus]

theorem c5_witness :
    send_jpeg envW 1 1 [Recv.data [114, 100, 121, 10, 111, 107, 10]] ⟨[], []⟩ [] =
      Except.ok ([Write.line (imageCmdString 0 ++ "\n"), Write.raw []],
        PyVal.dict [("status", PyVal.str "ok")], ⟨[], []⟩, [])
    ∧ imageCmdString 0 = "\x7b\"cmd\":\"image\",\"len\":0\x7d"
    ∧ payloadBytes [Write.line (imageCmdString 0 ++ "\n"), Write.raw []] = [] :=
  c5_zero_length_full_sequence envW 1 1 [Recv.data [114, 100, 121, 10, 111, 107, 10]]
    ⟨[], []⟩ (PyVal.dict [("status", PyVal.str "ready")]) ⟨[111, 107, 10], []⟩ []
    (PyVal.dict [("status", PyVal.str "ok")]) ⟨[], []⟩ []
    (by simp [read_until_status, nextRecv, processBuf, classifyLine, pyStrip,
      envW, asciiDecode, loadsW, pyContains, splitFirst])
    rfl
    (by simp [read_until_status, nextRecv, processBuf, classifyLine, pyStrip,
      envW, asciiDecode, loadsW, pyContains, splitFirst])
